import Mathlib

/-!
Verification of the timestamp/timezone reconciliation core of `photos_time_warp`.

The relevant Python modules are embedded shallowly:

* `exif_updater.py` — metadata extraction (`get_exif_date_time_offset`,
  `exif_offset_to_seconds`) and the push/pull reconciliation
  (`ExifUpdater.update_exif_from_photos`, `ExifUpdater.update_photos_from_exif`);
* `phototz.py` — the optimistic-concurrency catalog write
  (`PhotoTimeZoneUpdater._update_photo` and its bounded tenacity retry);
* `cli.py` — the per-photo pipeline order inside the processing loop and
  `update_photo_time_for_new_timezone` (the `--match-time` compensation).

Python `datetime.datetime` values are modelled by `NaiveDT` (wall-clock fields)
together with an optional attached UTC offset (`PyDateTime`); instants are
converted through seconds-since-epoch using the standard civil-calendar
algorithm, mirroring Python's proleptic Gregorian arithmetic.  Machine integers
are unbounded in Python, so `Nat`/`Int` are used directly.  Python functions
that can raise are embedded with `Option`/`Except` results.

The helper modules `datetime_utils.py` and `timeutils.py` (and
`format_offset_time`) are imported by the sources but are not part of the
source tree here; they are modelled from the specification, and each such
definition carries a doc comment starting with `Modelled from the spec:`.
-/

/-- Naive (offset-free) calendar datetime: the wall-clock fields of a Python
`datetime.datetime` with `tzinfo=None`. -/
structure NaiveDT where
  year : Nat
  month : Nat
  day : Nat
  hour : Nat
  minute : Nat
  second : Nat
deriving DecidableEq, Repr

/-- Gregorian leap-year rule, as in Python's `calendar.isleap`. -/
def isLeapYear (y : Nat) : Bool :=
  y % 4 = 0 && (y % 100 ≠ 0 || y % 400 = 0)

/-- Length of a month, as validated by the `datetime.datetime` constructor. -/
def daysInMonth (y m : Nat) : Nat :=
  if m = 2 then (if isLeapYear y then 29 else 28)
  else if m = 4 || m = 6 || m = 9 || m = 11 then 30
  else 31

/-- Range constraints enforced by the `datetime.datetime` constructor
(`MINYEAR = 1`, `MAXYEAR = 9999`; seconds 60/61 from `%S` are rejected). -/
def validDT (d : NaiveDT) : Prop :=
  1 ≤ d.year ∧ d.year ≤ 9999 ∧ 1 ≤ d.month ∧ d.month ≤ 12 ∧
  1 ≤ d.day ∧ d.day ≤ daysInMonth d.year d.month ∧
  d.hour ≤ 23 ∧ d.minute ≤ 59 ∧ d.second ≤ 59

instance (d : NaiveDT) : Decidable (validDT d) := by
  unfold validDT; infer_instance

/-- Days since 1970-01-01 of a civil Gregorian date (floor-division form of the
standard civil-from-days algorithm; equivalent to Python's
`datetime.toordinal` shifted to the Unix epoch). -/
def daysFromCivil (y m d : Int) : Int :=
  let y1 : Int := if m ≤ 2 then y - 1 else y
  let era : Int := Int.ediv y1 400
  let yoe : Int := y1 - era * 400
  let doy : Int := Int.ediv (153 * (m + (if 2 < m then -3 else 9)) + 2) 5 + d - 1
  let doe : Int := yoe * 365 + Int.ediv yoe 4 - Int.ediv yoe 100 + doy
  era * 146097 + doe - 719468

/-- Inverse of `daysFromCivil`: civil date of a day count since 1970-01-01. -/
def civilFromDays (z : Int) : Int × Int × Int :=
  let z1 : Int := z + 719468
  let era : Int := Int.ediv z1 146097
  let doe : Int := z1 - era * 146097
  let yoe : Int :=
    Int.ediv (doe - Int.ediv doe 1460 + Int.ediv doe 36524 - Int.ediv doe 146096) 365
  let y : Int := yoe + era * 400
  let doy : Int := doe - (365 * yoe + Int.ediv yoe 4 - Int.ediv yoe 100)
  let mp : Int := Int.ediv (5 * doy + 2) 153
  let d : Int := doy - Int.ediv (153 * mp + 2) 5 + 1
  let m : Int := mp + (if mp < 10 then 3 else -9)
  (if m ≤ 2 then y + 1 else y, m, d)

/-- Seconds since the Unix epoch of a naive datetime read as UTC wall clock. -/
def toEpochSecs (dt : NaiveDT) : Int :=
  86400 * daysFromCivil dt.year dt.month dt.day +
    3600 * (dt.hour : Int) + 60 * (dt.minute : Int) + (dt.second : Int)

/-- Naive datetime whose UTC wall-clock reading is the given epoch second. -/
def fromEpochSecs (t : Int) : NaiveDT :=
  let days := Int.ediv t 86400
  let sod := (Int.emod t 86400).toNat
  let ymd := civilFromDays days
  ⟨ymd.1.toNat, ymd.2.1.toNat, ymd.2.2.toNat, sod / 3600, sod % 3600 / 60, sod % 60⟩

/-- Shift a naive datetime by a signed number of seconds (Python
`datetime + timedelta(seconds=k)`), carrying across day boundaries. -/
def addSeconds (dt : NaiveDT) (k : Int) : NaiveDT :=
  fromEpochSecs (toEpochSecs dt + k)

/-! ### Character and string utilities

The extractor manipulates Python `str` values; they are embedded as
`List Char`.  `String` values appearing in dictionaries are converted with
`String.toList` at the boundary. -/

/-- Numeric value of a decimal digit character. -/
def digitVal (c : Char) : Nat := c.toNat - 48

/-- Two-digit zero-padded decimal rendering (Python `"%02d"` for values < 100;
all uses below are guarded to that range). -/
def pad2 (n : Nat) : List Char :=
  [Nat.digitChar (n / 10), Nat.digitChar (n % 10)]

/-- Four-digit zero-padded decimal rendering (Python `"%04d"`, and `strftime
%Y` for four-digit years, the only years the proofs quantify over). -/
def pad4 (n : Nat) : List Char :=
  [Nat.digitChar (n / 1000), Nat.digitChar (n / 100 % 10),
   Nat.digitChar (n / 10 % 10), Nat.digitChar (n % 10)]

/-- Value of a list of decimal digit characters, most significant first. -/
def digitsToNat (l : List Char) : Nat :=
  l.foldl (fun a c => 10 * a + digitVal c) 0

/-- Maximal decimal-digit run at the head of the list, with the remainder. -/
def readDigits : List Char → List Char × List Char
  | [] => ([], [])
  | c :: t =>
    if c.isDigit then
      let p := readDigits t
      (c :: p.1, p.2)
    else ([], c :: t)

/-- Split a list on every occurrence of a separator character
(Python `str.split(sep)`: `"".split(sep) == [""]`, separators not kept). -/
def splitOnChar (sep : Char) : List Char → List (List Char)
  | [] => [[]]
  | c :: t =>
    let r := splitOnChar sep t
    if c = sep then [] :: r
    else match r with
      | h :: t' => (c :: h) :: t'
      | [] => [[c]]

/-- Python `int(str)`: optional surrounding whitespace, optional sign, then a
nonempty digit run (underscore grouping is never produced by the inputs
modelled here and is omitted). -/
def pyInt (l : List Char) : Option Int :=
  let l1 := (l.dropWhile Char.isWhitespace).reverse.dropWhile Char.isWhitespace |>.reverse
  let (sign, l2) : Int × List Char :=
    match l1 with
    | '+' :: t => (1, t)
    | '-' :: t => (-1, t)
    | t => (1, t)
  if l2 ≠ [] ∧ l2.all Char.isDigit then some (sign * (digitsToNat l2 : Int)) else none

/-- Python `str.replace(":", "")`. -/
def removeColons (l : List Char) : List Char := l.filter (fun c => c ≠ ':')

/-- `exif_offset_to_seconds` (exif_updater.py:33-37): convert a timezone
offset in exiftool format (`±hh:mm`) to seconds.  `none` models the
exceptions the Python code can raise (index error on the empty string,
unpacking error when the split does not give two parts, `int()` failures). -/
def exif_offset_to_seconds (offset : List Char) : Option Int :=
  match offset with
  | [] => none
  | c :: rest =>
    let sign : Int := if c = '+' then 1 else -1
    match splitOnChar ':' rest with
    | [hours, minutes] =>
      match pyInt hours, pyInt minutes with
      | some h, some m => some (sign * (h * 3600 + m * 60))
      | _, _ => none
    | _ => none

/-! ### The regular expressions of `get_exif_date_time_offset`

`re.match` anchors at the start of the string only, so each matcher checks a
prefix shape.  Python's `\s` is modelled by `Char.isWhitespace` (the data in
scope only ever uses a plain space). -/

/-- Prefix match for `\d{4}:\d{2}:\d{2}\s\d{2}:\d{2}:\d{2}`
(exif_updater.py:242, "make sure we have time"). -/
def matchFullDT : List Char → Bool
  | y1 :: y2 :: y3 :: y4 :: c1 :: m1 :: m2 :: c2 :: d1 :: d2 :: w ::
      h1 :: h2 :: c3 :: i1 :: i2 :: c4 :: s1 :: s2 :: _ =>
    y1.isDigit && y2.isDigit && y3.isDigit && y4.isDigit && c1 = ':' &&
    m1.isDigit && m2.isDigit && c2 = ':' && d1.isDigit && d2.isDigit &&
    w.isWhitespace && h1.isDigit && h2.isDigit && c3 = ':' &&
    i1.isDigit && i2.isDigit && c4 = ':' && s1.isDigit && s2.isDigit
  | _ => false

/-- Prefix match for `^(\d{4}:\d{2}:\d{2})` (exif_updater.py:245, "make sure
we have date"), returning the captured ten-character date prefix. -/
def matchDateOnly : List Char → Option (List Char)
  | y1 :: y2 :: y3 :: y4 :: c1 :: m1 :: m2 :: c2 :: d1 :: d2 :: _ =>
    if y1.isDigit && y2.isDigit && y3.isDigit && y4.isDigit && c1 = ':' &&
        m1.isDigit && m2.isDigit && c2 = ':' && d1.isDigit && d2.isDigit then
      some [y1, y2, y3, y4, c1, m1, m2, c2, d1, d2]
    else none
  | _ => none

/-- Prefix match for
`\d{4}:\d{2}:\d{2}\s\d{2}:\d{2}:\d{2}([+-]\d{2}:\d{2})`
(exif_updater.py:237), returning the captured offset group. -/
def matchEmbeddedOffset (l : List Char) : Option (List Char) :=
  if matchFullDT l then
    match l.drop 19 with
    | sg :: h1 :: h2 :: c :: m1 :: m2 :: _ =>
      if (sg = '+' || sg = '-') && h1.isDigit && h2.isDigit && c = ':' &&
          m1.isDigit && m2.isDigit then
        some [sg, h1, h2, c, m1, m2]
      else none
    | _ => none
  else none

/-- `re.sub(r"[+-]\d{2}:\d{2}$", "", dt)` (exif_updater.py:256): drop a
trailing colon-form offset if present. -/
def stripTrailingOffset (l : List Char) : List Char :=
  let tail6 := l.drop (l.length - 6)
  let isOff : Bool :=
    match tail6 with
    | [sg, h1, h2, c, m1, m2] =>
      (sg = '+' || sg = '-') && h1.isDigit && h2.isDigit && c = ':' &&
        m1.isDigit && m2.isDigit
    | _ => false
  if 6 ≤ l.length ∧ isOff then l.take (l.length - 6) else l

/-! ### The relevant fragment of Python `datetime.strptime`

CPython's `_strptime` compiles each format into a regular expression
(`%Y` → four digits; `%m`,`%d`,`%H`,`%M`,`%S` → the one- or two-digit
alternations below; whitespace in the format → one or more whitespace
characters; `%z` → `[+-]\d\d:?[0-5]\d` with an optional seconds group) and
requires the whole string to be consumed; the `datetime` constructor then
validates the ranges.  In the two formats used by the sources every numeric
field is followed by a non-digit (`:`, space, the `%z` sign, or the end), so
a field matches exactly a maximal digit run, and the backtracking regex
succeeds iff the run's length is 1 or 2 (4 for `%Y`) and its value passes the
alternation's range test.  The unreachable `Z` alternative of `%z` (it can
only be reached through strings that already failed `exif_offset_to_seconds`)
is omitted. -/

/-- One numeric `strptime` field: a maximal digit run of length 2 accepted by
`ok2`, or of length 1 accepted by `ok1`. -/
def parseNum (ok2 ok1 : Nat → Bool) (l : List Char) : Option (Nat × List Char) :=
  match readDigits l with
  | ([a, b], rest) =>
    let v := 10 * digitVal a + digitVal b
    if ok2 v then some (v, rest) else none
  | ([a], rest) =>
    let v := digitVal a
    if ok1 v then some (v, rest) else none
  | _ => none

/-- The `%Y` field: exactly four digits. -/
def parseYear (l : List Char) : Option (Nat × List Char) :=
  match readDigits l with
  | ([a, b, c, d], rest) => some (digitsToNat [a, b, c, d], rest)
  | _ => none

/-- A literal character in a `strptime` format. -/
def expectChar (c : Char) : List Char → Option (List Char)
  | x :: t => if x = c then some t else none
  | [] => none

/-- Whitespace in a `strptime` format: one or more whitespace characters. -/
def expectSpaces : List Char → Option (List Char)
  | x :: t => if x.isWhitespace then some (t.dropWhile Char.isWhitespace) else none
  | [] => none

/-- The numeric fields of `"%Y:%m:%d %H:%M:%S"` in sequence, before range
validation by the `datetime` constructor. -/
def parseDTCore (l : List Char) : Option (NaiveDT × List Char) :=
  (parseYear l).bind fun (y, r1) =>
  (expectChar ':' r1).bind fun r2 =>
  (parseNum (fun v => 1 ≤ v && v ≤ 12) (fun v => 1 ≤ v && v ≤ 9) r2).bind fun (mo, r3) =>
  (expectChar ':' r3).bind fun r4 =>
  (parseNum (fun v => 1 ≤ v && v ≤ 31) (fun v => 1 ≤ v && v ≤ 9) r4).bind fun (d, r5) =>
  (expectSpaces r5).bind fun r6 =>
  (parseNum (fun v => v ≤ 23) (fun _ => true) r6).bind fun (h, r7) =>
  (expectChar ':' r7).bind fun r8 =>
  (parseNum (fun v => v ≤ 59) (fun _ => true) r8).bind fun (mi, r9) =>
  (expectChar ':' r9).bind fun r10 =>
  (parseNum (fun v => v ≤ 61) (fun _ => true) r10).bind fun (s, r11) =>
  some (⟨y, mo, d, h, mi, s⟩, r11)

/-- The `%z` field: sign, two-digit hours, optional colon, two-digit minutes
(first digit 0–5), optional two-digit seconds (with optional colon), giving a
signed offset in seconds; the `datetime.timezone` constructor then requires
the offset to be strictly within 24 hours. -/
def parseZ (l : List Char) : Option (Int × List Char) :=
  match l with
  | sg :: h1 :: h2 :: r1 =>
    if (sg = '+' || sg = '-') && h1.isDigit && h2.isDigit then
      let hh := 10 * digitVal h1 + digitVal h2
      let r2 := match r1 with
        | ':' :: t => t
        | t => t
      match r2 with
      | m1 :: m2 :: r3 =>
        if m1.isDigit && digitVal m1 ≤ 5 && m2.isDigit then
          let mm := 10 * digitVal m1 + digitVal m2
          let (ss, r5) : Nat × List Char :=
            match r3 with
            | ':' :: s1 :: s2 :: r4 =>
              if s1.isDigit && digitVal s1 ≤ 5 && s2.isDigit then
                (10 * digitVal s1 + digitVal s2, r4)
              else (0, r3)
            | s1 :: s2 :: r4 =>
              if s1.isDigit && digitVal s1 ≤ 5 && s2.isDigit then
                (10 * digitVal s1 + digitVal s2, r4)
              else (0, r3)
            | _ => (0, r3)
          let total : Nat := hh * 3600 + mm * 60 + ss
          if total < 86400 then
            some ((if sg = '-' then -(total : Int) else (total : Int)), r5)
          else none
        else none
      | _ => none
    else none
  | _ => none

/-- `datetime.datetime.strptime(s, "%Y:%m:%d %H:%M:%S")`: full-string match
plus constructor range validation; `none` models `ValueError`. -/
def strptimeNaive (l : List Char) : Option NaiveDT :=
  match parseDTCore l with
  | some (dt, []) => if validDT dt then some dt else none
  | _ => none

/-- `datetime.datetime.strptime(s, "%Y:%m:%d %H:%M:%S%z")`: as `strptimeNaive`
followed by a `%z` offset ending the string. -/
def strptimeAware (l : List Char) : Option (NaiveDT × Int) :=
  match parseDTCore l with
  | some (dt, rest) =>
    match parseZ rest with
    | some (z, []) => if validDT dt then some (dt, z) else none
    | _ => none
  | _ => none

/-! ### `ExifDateTime` and `get_exif_date_time_offset` (exif_updater.py:206-268) -/

/-- A Python `datetime.datetime` that may carry a UTC offset (`tzinfo`):
`tz = none` is a naive datetime, `tz = some z` an offset-aware one with
offset `z` seconds from UTC. -/
structure PyDateTime where
  naive : NaiveDT
  tz : Option Int
deriving DecidableEq, Repr

/-- The `ExifDateTime` named tuple (exif_updater.py:28-30). `offset_str` is
kept as a character list (the Python `str`). -/
structure ExifDateTime where
  datetime : Option PyDateTime
  offset_seconds : Option Int
  offset_str : List Char
  default_time : Bool
deriving DecidableEq, Repr

/-- The exiftool dictionary: field name to raw string value.  (Later keys
would shadow earlier ones in Python; all dictionaries considered here have
distinct keys.) -/
def ExifDict := List (String × String)

/-- `exif.get(key)`: `none` when the key is missing. -/
def exifGet (exif : ExifDict) (key : String) : Option String :=
  List.lookup key exif

/-- Python truthiness of an optional string: `None` and `""` are falsy. -/
def truthy : Option String → Bool
  | none => false
  | some s => !s.isEmpty

/-- The ordered fallback list of datetime-bearing fields
(exif_updater.py:210-218). -/
def dtFieldList : List String :=
  ["EXIF:DateTimeOriginal", "EXIF:CreateDate", "QuickTime:CreationDate",
   "QuickTime:CreateDate", "IPTC:DateCreated", "XMP-exif:DateTimeOriginal",
   "XMP-xmp:CreateDate"]

/-- The field-search loop (exif_updater.py:210-231): first truthy field wins
and breaks; a winning `IPTC:DateCreated` is augmented with `IPTC:TimeCreated`
(or `00:00:00` with `default_time = True`); the `for`/`else` leaves
`dt = None` when no field is truthy.  Returns the winning `dt` string and the
`default_time` flag as set inside the loop. -/
def chooseDTField (exif : ExifDict) : List String → Option (List Char) × Bool
  | [] => (none, false)
  | f :: rest =>
    match exifGet exif f with
    | some s =>
      if s.isEmpty then chooseDTField exif rest
      else if f = "IPTC:DateCreated" then
        match exifGet exif "IPTC:TimeCreated" with
        | some t =>
          if t.isEmpty then (some (s.toList ++ (" 00:00:00").toList), true)
          else (some (s.toList ++ (" ").toList ++ t.toList), false)
        | none => (some (s.toList ++ (" 00:00:00").toList), true)
      else (some s.toList, false)
    | none => chooseDTField exif rest

/-- The offset-resolution step (exif_updater.py:233-238): prefer a truthy
`EXIF:OffsetTimeOriginal`, otherwise try the offset embedded as a trailing
group of the winning datetime string (replacing the field value entirely,
with `None` when the pattern does not match). -/
def resolveOffset (dt0 : Option (List Char)) (offsetField : Option String) :
    Option (List Char) :=
  if dt0.isSome && !truthy offsetField then matchEmbeddedOffset (dt0.getD [])
  else offsetField.map String.toList

/-- The time-presence step (exif_updater.py:240-249): when the winning string
fails the full date-time pattern but starts with a date, replace it by that
date followed by ` 00:00:00` and set `default_time`. -/
def ensureTime (dtd : Option (List Char) × Bool) : Option (List Char) × Bool :=
  match dtd.1 with
  | some s =>
    if matchFullDT s then (some s, dtd.2)
    else
      match matchDateOnly s with
      | some datePart => (some (datePart ++ (" 00:00:00").toList), true)
      | none => (some s, dtd.2)
  | none => (none, dtd.2)

/-- The post-loop body of `get_exif_date_time_offset`
(exif_updater.py:233-268), taking the loop's result and the raw
`EXIF:OffsetTimeOriginal` value: offset resolution, time defaulting, then
offset conversion and datetime parsing.  `Except.error ()` models the
uncaught `ValueError`s of `exif_offset_to_seconds` and `strptime`. -/
def finishExtract (dtd : Option (List Char) × Bool) (offsetField : Option String) :
    Except Unit ExifDateTime :=
  let offset1 : Option (List Char) := resolveOffset dtd.1 offsetField
  let dt1 := (ensureTime dtd).1
  let default_time := (ensureTime dtd).2
  -- offset truthiness: None and "" are falsy
  let offTruthy : Bool := match offset1 with | none => false | some l => !l.isEmpty
  -- offset_seconds = exif_offset_to_seconds(offset) if offset else None
  if offTruthy then
    match exif_offset_to_seconds (offset1.getD []) with
    | none => Except.error ()
    | some osec =>
      let ostr := removeColons (offset1.getD [])
      match dt1 with
      | none => Except.ok ⟨none, some osec, ostr, default_time⟩
      | some s =>
        -- drop trailing offset from dt, append compact offset, parse with %z
        match strptimeAware (stripTrailingOffset s ++ ostr) with
        | none => Except.error ()
        | some (n, z) => Except.ok ⟨some ⟨n, some z⟩, some osec, ostr, default_time⟩
  else
    match dt1 with
    | none => Except.ok ⟨none, none, [], default_time⟩
    | some s =>
      match strptimeNaive s with
      | none => Except.error ()
      | some n => Except.ok ⟨some ⟨n, none⟩, none, [], default_time⟩

/-- `get_exif_date_time_offset` (exif_updater.py:206-268). -/
def get_exif_date_time_offset (exif : ExifDict) : Except Unit ExifDateTime :=
  finishExtract (chooseDTField exif dtFieldList) (exifGet exif "EXIF:OffsetTimeOriginal")

/-! ### Timezone values and spec-modelled datetime helpers -/

/-- `Timezone` (timezones.py:14-44): the offset in seconds from GMT together
with the derived display name (the name is produced by the platform
`NSTimeZone` and is irrelevant to every property proved here). -/
structure Timezone where
  offset : Int
  name : String
deriving DecidableEq, Repr

/-- Modelled from the spec: `offsetFromSeconds` — `Timezone(tz: int)`
constructs a timezone from a seconds value, deriving a synthetic
`GMT±HHMM`-style name from the platform database (timezones.py:23-24; the
platform lookup is a black box, so the name is rendered directly). -/
def Timezone.ofSeconds (secs : Int) : Timezone :=
  ⟨secs, "GMT" ++ ⟨(if secs < 0 then '-' else '+') ::
    (pad2 (secs.natAbs / 3600) ++ pad2 (secs.natAbs % 3600 / 60))⟩⟩

/-- Modelled from the spec: `format_offset_time` (imported from
`.timezones`, absent from src/) formats an offset to the canonical `±HH:MM`
string; formatting "is exact (no rounding; fails with `InvalidOffset` if the
seconds value is not representable as whole minutes)" (§4.1). -/
def format_offset_time (offset : Int) : Option (List Char) :=
  if offset % 60 = 0 then
    some ((if offset < 0 then '-' else '+') ::
      (pad2 (offset.natAbs / 3600) ++ ':' :: pad2 (offset.natAbs % 3600 / 60)))
  else none

/-- Modelled from the spec: `datetime_tz_to_utc` from `datetime_utils.py`
(absent from src/) — "converting to UTC" (§4.5): the naive UTC wall clock of
an offset-qualified datetime. -/
def datetime_tz_to_utc (n : NaiveDT) (tz : Int) : NaiveDT :=
  addSeconds n (-tz)

/-- Modelled from the spec: the pull-side aware-to-naive conversion
(exif_updater.py:178-180, built from `datetime_remove_tz`,
`datetime_utc_to_local`, `datetime_tz_to_utc` of the absent
`datetime_utils.py`): "converting to UTC, then re-localizing to the process's
ambient zone, then stripping the offset" (§4.5).  The ambient zone is
modelled as a fixed offset `localOff` in seconds. -/
def awareToNaiveLocal (localOff : Int) (n : NaiveDT) (tz : Int) : NaiveDT :=
  addSeconds n (localOff - tz)

/-- Modelled from the spec: the push-side localisation
(exif_updater.py:77-79: `datetime_naive_to_local` then `datetime_to_new_tz`,
both from the absent `datetime_utils.py`): interpret the naive catalog
datetime in the process's ambient zone (§4.1 `toLocalAware`), then re-express
that instant under the photo's stored offset (§4.1 `toOffset`), yielding the
wall clock under the stored offset. -/
def naiveLocalToPhotoTZ (localOff : Int) (n : NaiveDT) (tz : Int) : NaiveDT :=
  addSeconds n (tz - localOff)

/-- Modelled from the spec: `update_datetime` from `timeutils.py` (absent
from src/) — §4.1 `applyDelta`: an absolute date replaces the date axis
keeping the time of day, an absolute time replaces the time axis keeping the
date, a date delta adds whole days, a time delta adds seconds carrying across
day boundaries.  (The CLI constraints make absolute values and deltas on the
same axis mutually exclusive.) -/
def update_datetime (dt : NaiveDT) (date : Option (Nat × Nat × Nat))
    (time : Option (Nat × Nat × Nat)) (date_delta : Option Int)
    (time_delta : Option Int) : NaiveDT :=
  let d1 := match date with
    | some (y, mo, d) => { dt with year := y, month := mo, day := d }
    | none => dt
  let d2 := match time with
    | some (h, mi, s) => { d1 with hour := h, minute := mi, second := s }
    | none => d1
  let d3 := match date_delta with
    | some days => addSeconds d2 (86400 * days)
    | none => d2
  match time_delta with
  | some secs => addSeconds d3 secs
  | none => d3

/-! ### The catalog row and `PhotoTimeZoneUpdater` (phototz.py:70-146) -/

/-- The catalog state of one asset that the tool reads and writes: the row of
`ZADDITIONALASSETATTRIBUTES` selected by `_update_photo` (version counter
`Z_OPT`, `ZTIMEZONEOFFSET`, `ZTIMEZONENAME`) together with the asset's
naive datetime as surfaced by `photo.date`. -/
structure PhotoState where
  date : NaiveDT
  z_opt : Nat
  tzOffset : Int
  tzName : String
deriving DecidableEq, Repr

/-- One successful attempt of `PhotoTimeZoneUpdater._update_photo`
(phototz.py:116-144): read the row, compute `z_opt = Z_OPT + 1`, and write
the new version, offset and name back to the same row. -/
def tzUpdateAttempt (tz : Timezone) (st : PhotoState) : PhotoState :=
  { st with z_opt := st.z_opt + 1, tzOffset := tz.offset, tzName := tz.name }

/-- The tenacity retry bound of `_update_photo`:
`stop=stop_after_attempt(10)` (phototz.py:112-115). -/
def tenacityMaxAttempts : Nat := 10

/-- The retry loop around `_update_photo`: each entry of `outcomes` is one
attempt, `true` meaning the attempt succeeds and `false` meaning it raises
(an attempt that raises leaves the row unwritten; the next attempt re-reads
the row afresh).  The loop stops at the first success. -/
def runRetries (tz : Timezone) : List Bool → PhotoState → PhotoState
  | [], st => st
  | ok :: rest, st => if ok then tzUpdateAttempt tz st else runRetries tz rest st

/-! ### The pull direction: `ExifUpdater.update_photos_from_exif`
(exif_updater.py:133-189) -/

/-- Observable actions of one pull, in execution order. -/
inductive PullStep where
  | skippedNoExif
  | setTimezone (offset : Int)
  | setDate (d : NaiveDT)
deriving DecidableEq, Repr

/-- The naive local datetime stored by the pull's date update
(exif_updater.py:175-182): an aware extracted datetime is converted to naive
local, a naive one is used as is. -/
def pullLocalDT (localOff : Int) (pdt : PyDateTime) : NaiveDT :=
  match pdt.tz with
  | some z => awareToNaiveLocal localOff pdt.naive z
  | none => pdt.naive

/-- `update_photos_from_exif` proper (exif_updater.py:157-189): skip when
neither datetime nor offset is usable; otherwise update the timezone first
(through `PhotoTimeZoneUpdater`) when `dtinfo.offset_seconds` is truthy,
then the date/time when `dtinfo.datetime` is present.  Python truthiness
makes `offset_seconds == 0` falsy. -/
def update_photos_from_exif (localOff : Int) (dtinfo : ExifDateTime)
    (st : PhotoState) : PhotoState × List PullStep :=
  -- if not dtinfo.datetime and not dtinfo.offset_seconds: skip
  if dtinfo.datetime = none ∧ (dtinfo.offset_seconds = none ∨ dtinfo.offset_seconds = some 0)
  then (st, [PullStep.skippedNoExif])
  else
    -- if dtinfo.offset_seconds: update timezone then date/time
    let p1 : PhotoState × List PullStep :=
      match dtinfo.offset_seconds with
      | some z =>
        if z ≠ 0 then
          (tzUpdateAttempt (Timezone.ofSeconds z) st, [PullStep.setTimezone z])
        else (st, [])
      | none => (st, [])
    -- if dtinfo.datetime: photo.date = naive local datetime
    match dtinfo.datetime with
    | some pdt =>
      ({ p1.1 with date := pullLocalDT localOff pdt },
       p1.2 ++ [PullStep.setDate (pullLocalDT localOff pdt)])
    | none => p1

/-! ### `strftime` renderings used by the push direction -/

/-- `strftime("%Y:%m:%d %H:%M:%S")` (exif_updater.py:82). -/
def fmtYmdHMS (d : NaiveDT) : String :=
  ⟨pad4 d.year ++ ':' :: pad2 d.month ++ ':' :: pad2 d.day ++ ' ' ::
    pad2 d.hour ++ ':' :: pad2 d.minute ++ ':' :: pad2 d.second⟩

/-- `strftime("%Y:%m:%d")` (exif_updater.py:101). -/
def fmtYmd (d : NaiveDT) : String :=
  ⟨pad4 d.year ++ ':' :: pad2 d.month ++ ':' :: pad2 d.day⟩

/-- `strftime("%H:%M:%S")` (the format-string part of exif_updater.py:103). -/
def fmtHMS (d : NaiveDT) : String :=
  ⟨pad2 d.hour ++ ':' :: pad2 d.minute ++ ':' :: pad2 d.second⟩

/-! ### The push direction: `ExifUpdater.update_exif_from_photos`
(exif_updater.py:55-131) -/

/-- The exiftool field assignments made by `update_exif_from_photos` for one
asset (exif_updater.py:97-121), in insertion order.  `none` models the
exceptions of the movie branch's `strptime` and of `format_offset_time`. -/
def update_exif_from_photos (localOff : Int) (isphoto : Bool)
    (st : PhotoState) : Option (List (String × String)) :=
  let photo_date := naiveLocalToPhotoTZ localOff st.date st.tzOffset
  match format_offset_time st.tzOffset with
  | none => none
  | some offset =>
    let datetimeoriginal := fmtYmdHMS photo_date
    if isphoto then
      some [("EXIF:DateTimeOriginal", datetimeoriginal),
            ("EXIF:CreateDate", datetimeoriginal),
            ("IPTC:DateCreated", fmtYmd photo_date),
            ("IPTC:TimeCreated", fmtHMS photo_date ++ (⟨offset⟩ : String)),
            ("EXIF:OffsetTimeOriginal", (⟨offset⟩ : String))]
    else
      -- movie: CreationDate carries the offset; CreateDate is the UTC time
      let creationdate := datetimeoriginal ++ (⟨offset⟩ : String)
      match strptimeAware creationdate.toList with
      | none => none
      | some (n, z) =>
        some [("QuickTime:CreationDate", creationdate),
              ("QuickTime:CreateDate", fmtYmdHMS (datetime_tz_to_utc n z))]

/-! ### The per-photo CLI pipeline (cli.py:489-508) and `--match-time`
(cli.py:533-558) -/

/-- `update_photo_time_for_new_timezone` (cli.py:533-558): read the old
timezone offset from the catalog, compute
`delta = old_timezone - new_timezone.offset`, and shift `photo.date` by
`delta` seconds via `update_datetime(dt, time_delta=...)`.  (The guard
`if photo_date != new_photo_date` only skips a no-op write, which is
observably the same state.) -/
def update_photo_time_for_new_timezone (st : PhotoState) (new_timezone : Timezone) :
    PhotoState :=
  let old_timezone := st.tzOffset
  let delta := old_timezone - new_timezone.offset
  { st with date := update_datetime st.date none none none (some delta) }

/-- The five per-photo operations of the processing loop, in the order the
`if` chain of cli.py:491-508 executes them. -/
inductive PhotoOp where
  | pullExif
  | editDateTime
  | matchTime
  | writeTimezone
  | pushExif
deriving DecidableEq, Repr

/-- Which CLI options were given (presence only; `timezone` is truthy iff the
`--timezone` option was supplied). -/
structure CliFlags where
  pull_exif : Bool
  date : Bool
  time : Bool
  date_delta : Bool
  time_delta : Bool
  match_time : Bool
  timezone : Bool
  push_exif : Bool
deriving DecidableEq, Repr

/-- The operations the loop body (cli.py:490-508) performs on one photo, in
execution order: `--pull-exif` first, then date/time edits when any of
`--date`/`--time`/`--date-delta`/`--time-delta` is given, then the
`--match-time` compensation, then the `--timezone` catalog write, then
`--push-exif` last. -/
def photoPipeline (f : CliFlags) : List PhotoOp :=
  (if f.pull_exif then [PhotoOp.pullExif] else []) ++
  (if f.date || f.time || f.date_delta || f.time_delta then [PhotoOp.editDateTime] else []) ++
  (if f.match_time then [PhotoOp.matchTime] else []) ++
  (if f.timezone then [PhotoOp.writeTimezone] else []) ++
  (if f.push_exif then [PhotoOp.pushExif] else [])

/-- The canonical order the spec requires of the five operations. -/
def canonicalPipeline : List PhotoOp :=
  [PhotoOp.pullExif, PhotoOp.editDateTime, PhotoOp.matchTime,
   PhotoOp.writeTimezone, PhotoOp.pushExif]

/-- The state transformation of the `--match-time` and `--timezone` steps of
the loop body, in the code's order: the match-time compensation runs first
(cli.py:495-498, while the catalog still holds the old offset), then the
timezone write (cli.py:499-500). -/
def runTimezoneSteps (match_time tz_flag : Bool) (tz : Timezone)
    (st : PhotoState) : PhotoState :=
  let st1 := if match_time then update_photo_time_for_new_timezone st tz else st
  if tz_flag then tzUpdateAttempt tz st1 else st1

/-! ### Display semantics of a photo state -/

/-- The absolute instant denoted by a photo state: `photo.date` is the naive
wall clock in the process's ambient zone (`localOff` seconds), so the instant
is its epoch reading minus that offset. -/
def displayedInstant (localOff : Int) (st : PhotoState) : Int :=
  toEpochSecs st.date - localOff

/-- The wall-clock reading Photos displays for a state: the instant
re-expressed under the asset's stored timezone offset (as the `--inspect`
path does with `datetime_to_new_tz`), as an epoch-style second count. -/
def displayedWallClock (localOff : Int) (st : PhotoState) : Int :=
  displayedInstant localOff st + st.tzOffset

/-- The pull case policy as the (amended) specification words it: a present
and nonzero extracted offset is written first, then a present extracted
datetime; a datetime-only result updates the date only; an absent datetime
with an absent — or zero, which Python truthiness conflates with absent —
offset is a reported no-op. -/
def pullCasePolicySpec (localOff : Int) (dtinfo : ExifDateTime)
    (st : PhotoState) : PhotoState × List PullStep :=
  match dtinfo.datetime, dtinfo.offset_seconds with
  | none, none => (st, [PullStep.skippedNoExif])
  | none, some z =>
    if z = 0 then (st, [PullStep.skippedNoExif])
    else (tzUpdateAttempt (Timezone.ofSeconds z) st, [PullStep.setTimezone z])
  | some pdt, none =>
    ({ st with date := pullLocalDT localOff pdt },
     [PullStep.setDate (pullLocalDT localOff pdt)])
  | some pdt, some z =>
    if z = 0 then
      ({ st with date := pullLocalDT localOff pdt },
       [PullStep.setDate (pullLocalDT localOff pdt)])
    else
      ({ tzUpdateAttempt (Timezone.ofSeconds z) st with date := pullLocalDT localOff pdt },
       [PullStep.setTimezone z, PullStep.setDate (pullLocalDT localOff pdt)])

/-! ## Theorems -/

/-- Helper: a run of failing attempts leaves the row untouched, so the first
succeeding attempt writes against the initially read version. -/
theorem runRetries_replicate_false (tz : Timezone) (st : PhotoState) :
    ∀ k, runRetries tz (List.replicate k false ++ [true]) st = tzUpdateAttempt tz st := by
  intro k
  induction k with
  | zero => rfl
  | succ n ih => simpa [List.replicate_succ, runRetries] using ih

/-- C2: every successful catalog offset write stores a version counter exactly
one greater than the version read in the same attempt; if the first `N - 1`
attempts of `_update_photo` throw and the `N`th succeeds (`N` at most the
configured `tenacityMaxAttempts = 10`), the final stored version is
`initialVersion + 1`, never `initialVersion + N`. -/
theorem C2_retry_version_increment (tz : Timezone) (st : PhotoState) (N : Nat)
    (h1 : 1 ≤ N) (h2 : N ≤ tenacityMaxAttempts) :
    (runRetries tz (List.replicate (N - 1) false ++ [true]) st).z_opt = st.z_opt + 1 ∧
    (2 ≤ N →
      (runRetries tz (List.replicate (N - 1) false ++ [true]) st).z_opt ≠ st.z_opt + N) := by
  rw [runRetries_replicate_false]
  exact ⟨rfl, fun hN => by simp only [tzUpdateAttempt]; omega⟩

/-- C2 witness: three attempts, the first two failing, starting from version
5: the final version is 6, not 8. -/
theorem C2_retry_version_increment_witness :
    (runRetries ⟨-21600, "GMT-0600"⟩ (List.replicate 2 false ++ [true])
        ⟨⟨2020, 9, 1, 12, 40, 7⟩, 5, -25200, "GMT-0700"⟩).z_opt = 5 + 1 ∧
    (runRetries ⟨-21600, "GMT-0600"⟩ (List.replicate 2 false ++ [true])
        ⟨⟨2020, 9, 1, 12, 40, 7⟩, 5, -25200, "GMT-0700"⟩).z_opt ≠ 5 + 3 := by
  have h := C2_retry_version_increment ⟨-21600, "GMT-0600"⟩
    ⟨⟨2020, 9, 1, 12, 40, 7⟩, 5, -25200, "GMT-0700"⟩ 3 (by decide) (by decide)
  exact ⟨h.1, h.2 (by decide)⟩

/-- C8: for one photo, the loop body executes the requested operations in the
fixed order pull, date/time edit, match-time compensation, timezone write,
push; the pipeline is always a sublist of that canonical order and a push is
never followed by any other step. -/
theorem C8_pipeline_fixed_order :
    ∀ f : CliFlags, (photoPipeline f).Sublist canonicalPipeline ∧
      PhotoOp.pushExif ∉ (photoPipeline f).dropLast := by
  intro f
  obtain ⟨a, b, c, d, e, g, h, i⟩ := f
  revert a b c d e g h i
  decide

/-- C9: a pull whose extracted offset is exactly zero seconds treats it like
an absent offset: the catalog timezone row is not written (offset and version
counter unchanged), and if the extracted datetime is also absent the whole
pull is the reported no-op, so a zero offset can never be written through the
pull path. -/
theorem C9_zero_offset_is_absent (localOff : Int) (dtinfo : ExifDateTime)
    (st : PhotoState) (h : dtinfo.offset_seconds = some 0) :
    (update_photos_from_exif localOff dtinfo st).1.tzOffset = st.tzOffset ∧
    (update_photos_from_exif localOff dtinfo st).1.z_opt = st.z_opt ∧
    (∀ s, PullStep.setTimezone s ∉ (update_photos_from_exif localOff dtinfo st).2) ∧
    (dtinfo.datetime = none →
      update_photos_from_exif localOff dtinfo st = (st, [PullStep.skippedNoExif])) := by
  unfold update_photos_from_exif
  rw [h]
  cases hd : dtinfo.datetime with
  | none => simp
  | some pdt => simp

/-- C9 witness: an extraction result carrying `offset_seconds = 0` (as
produced from `OffsetTimeOriginal = "+00:00"`) with a datetime updates only
the date, leaving the stored offset `-25200` and version 5 untouched. -/
theorem C9_zero_offset_is_absent_witness :
    (update_photos_from_exif 0
        ⟨some ⟨⟨2021, 10, 2, 12, 40, 7⟩, some 0⟩, some 0, ['+', '0', '0', '0', '0'], false⟩
        ⟨⟨2020, 9, 1, 12, 40, 7⟩, 5, -25200, "GMT-0700"⟩).1.tzOffset = -25200 ∧
    (update_photos_from_exif 0
        ⟨some ⟨⟨2021, 10, 2, 12, 40, 7⟩, some 0⟩, some 0, ['+', '0', '0', '0', '0'], false⟩
        ⟨⟨2020, 9, 1, 12, 40, 7⟩, 5, -25200, "GMT-0700"⟩).1.z_opt = 5 := by
  have h := C9_zero_offset_is_absent 0
    ⟨some ⟨⟨2021, 10, 2, 12, 40, 7⟩, some 0⟩, some 0, ['+', '0', '0', '0', '0'], false⟩
    ⟨⟨2020, 9, 1, 12, 40, 7⟩, 5, -25200, "GMT-0700"⟩ rfl
  exact ⟨h.1, h.2.1⟩

/-- C3 counterexample: an extraction result with *both* offset and datetime
present — but the offset equal to zero (UTC), as arises from
`OffsetTimeOriginal = "+00:00"` — does not update the catalog offset at all:
the pull performs only the date update, refuting the claim that whenever both
are present the offset is updated first.  The first conjunct shows such a
result is really produced by the extractor. -/
theorem C3_counterexample :
    get_exif_date_time_offset
        [("EXIF:DateTimeOriginal", "2021:10:02 12:40:07"),
         ("EXIF:OffsetTimeOriginal", "+00:00")] =
      Except.ok ⟨some ⟨⟨2021, 10, 2, 12, 40, 7⟩, some 0⟩, some 0,
        ['+', '0', '0', '0', '0'], false⟩ ∧
    update_photos_from_exif 0
        ⟨some ⟨⟨2021, 10, 2, 12, 40, 7⟩, some 0⟩, some 0, ['+', '0', '0', '0', '0'], false⟩
        ⟨⟨2020, 9, 1, 12, 40, 7⟩, 5, 7200, "GMT+0200"⟩ =
      (⟨⟨2021, 10, 2, 12, 40, 7⟩, 5, 7200, "GMT+0200"⟩,
       [PullStep.setDate ⟨2021, 10, 2, 12, 40, 7⟩]) ∧
    (7200 : Int) ≠ 0 := by
  refine ⟨by rfl, by decide, by decide⟩

/-- C3 (amended): the pull follows the case policy on the extraction result
with one amendment forced by Python truthiness — an extracted offset of zero
seconds is treated as absent.  Both present with a nonzero offset: offset
written first, then the naive datetime; datetime only (offset absent or
zero): date only, stored offset untouched; nonzero offset only: offset only;
neither (or only a zero offset): the reported no-op. -/
theorem C3_pull_case_policy (localOff : Int) (dtinfo : ExifDateTime) (st : PhotoState) :
    update_photos_from_exif localOff dtinfo st = pullCasePolicySpec localOff dtinfo st := by
  unfold update_photos_from_exif pullCasePolicySpec
  cases hd : dtinfo.datetime with
  | none =>
    cases ho : dtinfo.offset_seconds with
    | none => simp
    | some z =>
      by_cases hz : z = 0 <;> simp [hz]
  | some pdt =>
    cases ho : dtinfo.offset_seconds with
    | none => simp
    | some z =>
      by_cases hz : z = 0 <;> simp [hz]

/-- C1 counterexample: starting from catalog naive datetime
2020-09-01T12:40:07 with stored offset −25200, the `--match-time` step
followed by the `--timezone` write to −21600 yields naive datetime 11:40:07
(the delta `old − new = −3600` applied), not the 13:40:07 the claim states;
and with the ambient zone at −25200 the operation preserves the displayed
wall-clock reading (12:40:07 before under −07:00, 12:40:07 after under
−06:00) while shifting the absolute instant by −3600 — it does not preserve
the original instant. -/
theorem C1_counterexample :
    (runTimezoneSteps true true (Timezone.ofSeconds (-21600))
        ⟨⟨2020, 9, 1, 12, 40, 7⟩, 1, -25200, "GMT-0700"⟩).date =
      ⟨2020, 9, 1, 11, 40, 7⟩ ∧
    (⟨2020, 9, 1, 11, 40, 7⟩ : NaiveDT) ≠ ⟨2020, 9, 1, 13, 40, 7⟩ ∧
    displayedWallClock (-25200)
        (runTimezoneSteps true true (Timezone.ofSeconds (-21600))
          ⟨⟨2020, 9, 1, 12, 40, 7⟩, 1, -25200, "GMT-0700"⟩) =
      displayedWallClock (-25200) ⟨⟨2020, 9, 1, 12, 40, 7⟩, 1, -25200, "GMT-0700"⟩ ∧
    displayedInstant (-25200)
        (runTimezoneSteps true true (Timezone.ofSeconds (-21600))
          ⟨⟨2020, 9, 1, 12, 40, 7⟩, 1, -25200, "GMT-0700"⟩) =
      displayedInstant (-25200) ⟨⟨2020, 9, 1, 12, 40, 7⟩, 1, -25200, "GMT-0700"⟩ +
        ((-25200) - (-21600)) := by
  refine ⟨?_, by decide, ?_, ?_⟩ <;> decide

/-- C1 (amended): for every asset the match-time request computes
`delta = oldOffsetSeconds − newOffsetSeconds` against the offset the catalog
still holds and applies it as a time delta to the naive datetime strictly
before the offset is overwritten (in the pipeline, the match step precedes
the timezone write); concretely, from naive datetime 2020-09-01T12:40:07 with
offset −25200, `setOffset(−21600, matchTime=true)` yields naive datetime
11:40:07, preserving the wall-clock reading under the new offset while the
absolute instant shifts by `oldOffset − newOffset`. -/
theorem C1_match_time_delta (st : PhotoState) (newTz : Timezone) :
    runTimezoneSteps true true newTz st =
      ⟨addSeconds st.date (st.tzOffset - newTz.offset), st.z_opt + 1,
        newTz.offset, newTz.name⟩ ∧
    (∀ f : CliFlags, f.match_time = true → f.timezone = true →
      List.Sublist [PhotoOp.matchTime, PhotoOp.writeTimezone] (photoPipeline f)) := by
  constructor
  · rfl
  · intro f hm ht
    obtain ⟨a, b, c, d, e, g, h, i⟩ := f
    simp only at hm ht
    subst hm ht
    revert a b c d e i
    decide

/-- C1 witness: the amended theorem applied at the concrete scenario: the
match step shifts 12:40:07 by −3600 to 11:40:07 and the pipeline with
`--match-time --timezone` runs the match step before the write. -/
theorem C1_match_time_delta_witness :
    runTimezoneSteps true true (Timezone.ofSeconds (-21600))
        ⟨⟨2020, 9, 1, 12, 40, 7⟩, 1, -25200, "GMT-0700"⟩ =
      ⟨addSeconds ⟨2020, 9, 1, 12, 40, 7⟩ ((-25200) - (-21600)), 2, -21600, "GMT-0600"⟩ ∧
    List.Sublist [PhotoOp.matchTime, PhotoOp.writeTimezone]
      (photoPipeline ⟨false, false, false, false, false, true, true, false⟩) := by
  have h := C1_match_time_delta ⟨⟨2020, 9, 1, 12, 40, 7⟩, 1, -25200, "GMT-0700"⟩
    (Timezone.ofSeconds (-21600))
  exact ⟨h.1, h.2 ⟨false, false, false, false, false, true, true, false⟩ rfl rfl⟩

/-- C5: the extractor consults the datetime-bearing fields in the fixed order
`EXIF:DateTimeOriginal`, `EXIF:CreateDate`, `QuickTime:CreationDate`,
`QuickTime:CreateDate`, `IPTC:DateCreated`, then the two XMP alternates; when
`EXIF:DateTimeOriginal` is non-empty it wins, and the whole extraction result
is a function of its value and the offset field alone — later fields such as
`EXIF:CreateDate` are never consulted. -/
theorem C5_first_nonempty_field_wins (exif : ExifDict) (v : String)
    (h1 : exifGet exif "EXIF:DateTimeOriginal" = some v) (h2 : v ≠ "") :
    dtFieldList = ["EXIF:DateTimeOriginal", "EXIF:CreateDate",
      "QuickTime:CreationDate", "QuickTime:CreateDate", "IPTC:DateCreated",
      "XMP-exif:DateTimeOriginal", "XMP-xmp:CreateDate"] ∧
    chooseDTField exif dtFieldList = (some v.toList, false) ∧
    get_exif_date_time_offset exif =
      finishExtract (some v.toList, false) (exifGet exif "EXIF:OffsetTimeOriginal") := by
  have hne : v.isEmpty = false := by
    cases hv : v.isEmpty with
    | false => rfl
    | true => exact absurd ((String.isEmpty_iff v).mp hv) h2
  have hchoose : chooseDTField exif dtFieldList = (some v.toList, false) := by
    unfold dtFieldList chooseDTField
    rw [h1]
    simp [hne]
  exact ⟨rfl, hchoose, by unfold get_exif_date_time_offset; rw [hchoose]⟩

/-- C5 witness: with both `DateTimeOriginal` and `CreateDate` populated with
different values, the result reflects `DateTimeOriginal` (2021-10-02), not
`CreateDate` (2020-01-01). -/
theorem C5_first_nonempty_field_wins_witness :
    chooseDTField
        [("EXIF:DateTimeOriginal", "2021:10:02 12:40:07"),
         ("EXIF:CreateDate", "2020:01:01 00:00:00")] dtFieldList =
      (some ("2021:10:02 12:40:07").toList, false) ∧
    get_exif_date_time_offset
        [("EXIF:DateTimeOriginal", "2021:10:02 12:40:07"),
         ("EXIF:CreateDate", "2020:01:01 00:00:00")] =
      Except.ok ⟨some ⟨⟨2021, 10, 2, 12, 40, 7⟩, none⟩, none, [], false⟩ := by
  have h := C5_first_nonempty_field_wins
    [("EXIF:DateTimeOriginal", "2021:10:02 12:40:07"),
     ("EXIF:CreateDate", "2020:01:01 00:00:00")]
    "2021:10:02 12:40:07" rfl (by decide)
  exact ⟨h.2.1, by rfl⟩

/-- C4 counterexample: when the first non-empty datetime-bearing field holds
the malformed string `"garbage"`, extraction fails with an error instead of
treating the value as absent — even though the next field in the fallback
chain holds a perfectly parseable value, as the second conjunct shows. -/
theorem C4_counterexample :
    get_exif_date_time_offset
        [("EXIF:DateTimeOriginal", "garbage"),
         ("EXIF:CreateDate", "2021:10:02 12:40:07")] = Except.error () ∧
    get_exif_date_time_offset [("EXIF:CreateDate", "2021:10:02 12:40:07")] =
      Except.ok ⟨some ⟨⟨2021, 10, 2, 12, 40, 7⟩, none⟩, none, [], false⟩ := by
  exact ⟨rfl, rfl⟩

/-- C4 (amended): a malformed winning field is *not* treated as absent: the
first non-empty field always wins, and when its value (with no explicit
offset field present) matches neither the datetime pattern nor the date-only
pattern and `strptime` cannot parse it, the whole extraction raises — the
fallback chain only ever skips fields that are missing or empty. -/
theorem C4_malformed_raises (exif : ExifDict) (s : List Char) (d : Bool)
    (hc : chooseDTField exif dtFieldList = (some s, d))
    (hoff : truthy (exifGet exif "EXIF:OffsetTimeOriginal") = false)
    (hfull : matchFullDT s = false)
    (hdate : matchDateOnly s = none)
    (hparse : strptimeNaive s = none) :
    get_exif_date_time_offset exif = Except.error () := by
  unfold get_exif_date_time_offset
  rw [hc]
  have hro : resolveOffset (some s, d).1 (exifGet exif "EXIF:OffsetTimeOriginal") = none := by
    unfold resolveOffset matchEmbeddedOffset
    simp [hoff, hfull]
  have het : ensureTime (some s, d) = (some s, d) := by
    unfold ensureTime
    simp [hfull, hdate]
  simp [finishExtract, hro, het, hparse]

/-- C4 witness: the amended theorem applied to the `"garbage"` mapping of the
counterexample. -/
theorem C4_malformed_raises_witness :
    get_exif_date_time_offset
        [("EXIF:DateTimeOriginal", "garbage"),
         ("EXIF:CreateDate", "2021:10:02 12:40:07")] = Except.error () := by
  exact C4_malformed_raises
    [("EXIF:DateTimeOriginal", "garbage"), ("EXIF:CreateDate", "2021:10:02 12:40:07")]
    ("garbage").toList false rfl rfl (by decide) (by decide) (by decide)

theorem splitOnChar_ne_nil (sep : Char) : ∀ l : List Char, splitOnChar sep l ≠ [] := by
  intro l
  cases l with
  | nil => simp [splitOnChar]
  | cons c t =>
    simp only [splitOnChar]
    by_cases hc : c = sep
    · simp [hc]
    · simp only [hc, if_false]
      cases splitOnChar sep t <;> simp

theorem splitOnChar_single (sep : Char) : ∀ l a : List Char,
    splitOnChar sep l = [a] → l = a ∧ sep ∉ a := by
  intro l
  induction l with
  | nil =>
    intro a h
    simp [splitOnChar] at h
    subst h
    simp
  | cons c t ih =>
    intro a h
    simp only [splitOnChar] at h
    by_cases hc : c = sep
    · rw [if_pos hc] at h
      obtain ⟨h1, h2⟩ := List.cons.inj h
      exact absurd h2 (splitOnChar_ne_nil sep t)
    · rw [if_neg hc] at h
      rcases hsp : splitOnChar sep t with _ | ⟨h1, t1⟩
      · exact absurd hsp (splitOnChar_ne_nil sep t)
      · rw [hsp] at h
        obtain ⟨ha, ht1⟩ := List.cons.inj h
        subst ht1
        obtain ⟨ht, hmem⟩ := ih h1 hsp
        subst ht ha
        exact ⟨rfl, by simp [hmem, Ne.symm hc]⟩

theorem splitOnChar_pair (sep : Char) : ∀ l a b : List Char,
    splitOnChar sep l = [a, b] → l = a ++ sep :: b ∧ sep ∉ a ∧ sep ∉ b := by
  intro l
  induction l with
  | nil => intro a b h; simp [splitOnChar] at h
  | cons c t ih =>
    intro a b h
    simp only [splitOnChar] at h
    by_cases hc : c = sep
    · rw [if_pos hc] at h
      obtain ⟨h1, h2⟩ := List.cons.inj h
      obtain ⟨ht, hmem⟩ := splitOnChar_single sep t b (by rw [h2])
      subst ht hc
      simp [← h1, hmem]
    · rw [if_neg hc] at h
      rcases hsp : splitOnChar sep t with _ | ⟨h1, t1⟩
      · exact absurd hsp (splitOnChar_ne_nil sep t)
      · rw [hsp] at h
        obtain ⟨ha, ht1⟩ := List.cons.inj h
        subst ht1 ha
        obtain ⟨ht, hm1, hm2⟩ := ih h1 b hsp
        subst ht
        exact ⟨rfl, by simp [hm1, Ne.symm hc], hm2⟩

theorem exif_offset_to_seconds_removeColons_ne_nil (l : List Char) (v : Int)
    (h : exif_offset_to_seconds l = some v) : removeColons l ≠ [] := by
  cases l with
  | nil => exact absurd h (by simp [exif_offset_to_seconds])
  | cons c rest =>
    simp only [exif_offset_to_seconds] at h
    rcases hsp : splitOnChar ':' rest with _ | ⟨hs, t1⟩
    · exact absurd hsp (splitOnChar_ne_nil ':' rest)
    · rcases t1 with _ | ⟨ms, t2⟩
      · simp only [hsp] at h; exact absurd h (by simp)
      · rcases t2 with _ | ⟨x, t3⟩
        · -- exactly two parts
          simp only [hsp] at h
          rcases hh : pyInt hs with _ | hv
          · simp only [hh] at h; exact absurd h (by simp)
          · rcases hm : pyInt ms with _ | mv
            · simp only [hh, hm] at h; exact absurd h (by simp)
            · have hsne : hs ≠ [] := by
                intro hnil
                rw [hnil] at hh
                exact absurd hh (by simp [pyInt])
              obtain ⟨hrest, hns, _⟩ := splitOnChar_pair ':' rest hs ms hsp
              intro hcontra
              unfold removeColons at hcontra
              rw [List.filter_eq_nil_iff] at hcontra
              rcases hs with _ | ⟨a0, hs'⟩
              · exact hsne rfl
              · have ha0 : a0 ∈ c :: rest := by
                  rw [hrest]; simp
                have := hcontra a0 ha0
                simp at this
                exact hns (by rw [this]; simp)
        · simp only [hsp] at h; exact absurd h (by simp)

theorem finishExtract_offset_inv (dtd : Option (List Char) × Bool) (off : Option String)
    (r : ExifDateTime) (h : finishExtract dtd off = Except.ok r) :
    (r.offset_seconds = none ↔ r.offset_str = []) ∧
    (∀ pdt, r.datetime = some pdt → (pdt.tz.isSome = true ↔ r.offset_str ≠ [])) := by
  simp only [finishExtract] at h
  rcases hO : resolveOffset dtd.1 off with _ | ol
  all_goals simp only [hO, Bool.false_eq_true, if_false, if_true] at h
  case none =>
    rcases hE : (ensureTime dtd).1 with _ | s
    all_goals simp only [hE] at h
    case none =>
      rw [Except.ok.injEq] at h; subst h
      exact ⟨by simp, fun pdt hpdt => absurd hpdt (by simp)⟩
    case some =>
      rcases hP : strptimeNaive s with _ | n
      all_goals simp only [hP] at h
      case none => exact absurd h (by simp)
      case some =>
        rw [Except.ok.injEq] at h; subst h
        refine ⟨by simp, fun pdt hpdt => ?_⟩
        simp only [Option.some.injEq] at hpdt
        subst hpdt
        simp
  case some =>
    by_cases hempty : ol.isEmpty
    all_goals simp only [hempty, Bool.not_true, Bool.not_false, Bool.false_eq_true, if_false, if_true] at h
    case pos =>
      -- empty string offset is falsy
      rcases hE : (ensureTime dtd).1 with _ | s
      all_goals simp only [hE] at h
      case none =>
        rw [Except.ok.injEq] at h; subst h
        exact ⟨by simp, fun pdt hpdt => absurd hpdt (by simp)⟩
      case some =>
        rcases hP : strptimeNaive s with _ | n
        all_goals simp only [hP] at h
        case none => exact absurd h (by simp)
        case some =>
          rw [Except.ok.injEq] at h; subst h
          refine ⟨by simp, fun pdt hpdt => ?_⟩
          simp only [Option.some.injEq] at hpdt
          subst hpdt
          simp
    case neg =>
      rcases hsec : exif_offset_to_seconds ((some ol).getD []) with _ | osec
      all_goals simp only [hsec] at h
      case none => exact absurd h (by simp)
      case some =>
        have hne := exif_offset_to_seconds_removeColons_ne_nil _ _ hsec
        rcases hE : (ensureTime dtd).1 with _ | s
        all_goals simp only [hE] at h
        case none =>
          rw [Except.ok.injEq] at h; subst h
          refine ⟨?_, fun pdt hpdt => absurd hpdt (by simp)⟩
          simp only [Option.getD] at hne
          simpa using hne
        case some =>
          rcases hP : strptimeAware (stripTrailingOffset s ++ removeColons ((some ol).getD []))
            with _ | ⟨n, z⟩
          all_goals simp only [hP] at h
          case none => exact absurd h (by simp)
          case some =>
            rw [Except.ok.injEq] at h; subst h
            simp only [Option.getD] at hne
            refine ⟨by simpa using hne, fun pdt hpdt => ?_⟩
            simp only [Option.some.injEq] at hpdt
            subst hpdt
            simpa using hne

/-- C10: for every input mapping, when extraction succeeds, `offset_seconds`
is `None` exactly when `offset_str` is the empty string, and a returned
datetime is offset-aware exactly when `offset_str` is non-empty. -/
theorem C10_offset_str_consistency (exif : ExifDict) (r : ExifDateTime)
    (h : get_exif_date_time_offset exif = Except.ok r) :
    (r.offset_seconds = none ↔ r.offset_str = []) ∧
    (∀ pdt, r.datetime = some pdt → (pdt.tz.isSome = true ↔ r.offset_str ≠ [])) := by
  unfold get_exif_date_time_offset at h
  exact finishExtract_offset_inv _ _ r h

/-- C10 witness: the invariants instantiated at a mapping with an explicit
offset field (aware result, non-empty `offset_str`). -/
theorem C10_offset_str_consistency_witness :
    ((some (-25200 : Int) = none ↔
        (['-', '0', '7', '0', '0'] : List Char) = []) ∧
      (∀ pdt, (some ⟨⟨2021, 10, 2, 12, 40, 7⟩, some (-25200)⟩ : Option PyDateTime) = some pdt →
        (pdt.tz.isSome = true ↔ (['-', '0', '7', '0', '0'] : List Char) ≠ []))) := by
  exact C10_offset_str_consistency
    [("EXIF:DateTimeOriginal", "2021:10:02 12:40:07"), ("EXIF:OffsetTimeOriginal", "-07:00")]
    ⟨some ⟨⟨2021, 10, 2, 12, 40, 7⟩, some (-25200)⟩, some (-25200),
      ['-', '0', '7', '0', '0'], false⟩ rfl

theorem finishExtract_default_time (dtd : Option (List Char) × Bool) (off : Option String)
    (r : ExifDateTime) (h : finishExtract dtd off = Except.ok r) :
    r.default_time = (ensureTime dtd).2 := by
  simp only [finishExtract] at h
  rcases hO : resolveOffset dtd.1 off with _ | ol
  all_goals simp only [hO, Bool.false_eq_true, if_false, if_true] at h
  case none =>
    rcases hE : (ensureTime dtd).1 with _ | s
    all_goals simp only [hE] at h
    case none => rw [Except.ok.injEq] at h; subst h; rfl
    case some =>
      rcases hP : strptimeNaive s with _ | n
      all_goals simp only [hP] at h
      case none => exact absurd h (by simp)
      case some => rw [Except.ok.injEq] at h; subst h; rfl
  case some =>
    by_cases hempty : ol.isEmpty
    all_goals simp only [hempty, Bool.not_true, Bool.not_false, Bool.false_eq_true, if_false, if_true] at h
    case pos =>
      rcases hE : (ensureTime dtd).1 with _ | s
      all_goals simp only [hE] at h
      case none => rw [Except.ok.injEq] at h; subst h; rfl
      case some =>
        rcases hP : strptimeNaive s with _ | n
        all_goals simp only [hP] at h
        case none => exact absurd h (by simp)
        case some => rw [Except.ok.injEq] at h; subst h; rfl
    case neg =>
      rcases hsec : exif_offset_to_seconds ((some ol).getD []) with _ | osec
      all_goals simp only [hsec] at h
      case none => exact absurd h (by simp)
      case some =>
        rcases hE : (ensureTime dtd).1 with _ | s
        all_goals simp only [hE] at h
        case none => rw [Except.ok.injEq] at h; subst h; rfl
        case some =>
          rcases hP : strptimeAware (stripTrailingOffset s ++ removeColons ((some ol).getD []))
            with _ | ⟨n, z⟩
          all_goals simp only [hP] at h
          case none => exact absurd h (by simp)
          case some => rw [Except.ok.injEq] at h; subst h; rfl

theorem finishExtract_datetime_src (dtd : Option (List Char) × Bool) (off : Option String)
    (r : ExifDateTime) (h : finishExtract dtd off = Except.ok r) :
    ∀ pdt, r.datetime = some pdt →
      ∃ s1, (ensureTime dtd).1 = some s1 ∧
        (strptimeNaive s1 = some pdt.naive ∨
         ∃ ostr z, strptimeAware (stripTrailingOffset s1 ++ ostr) = some (pdt.naive, z)) := by
  simp only [finishExtract] at h
  rcases hO : resolveOffset dtd.1 off with _ | ol
  all_goals simp only [hO, Bool.false_eq_true, if_false, if_true] at h
  case none =>
    rcases hE : (ensureTime dtd).1 with _ | s
    all_goals simp only [hE] at h
    case none =>
      rw [Except.ok.injEq] at h; subst h
      exact fun pdt hpdt => absurd hpdt (by simp)
    case some =>
      rcases hP : strptimeNaive s with _ | n
      all_goals simp only [hP] at h
      case none => exact absurd h (by simp)
      case some =>
        rw [Except.ok.injEq] at h; subst h
        intro pdt hpdt
        simp only [Option.some.injEq] at hpdt
        subst hpdt
        exact ⟨s, rfl, Or.inl hP⟩
  case some =>
    by_cases hempty : ol.isEmpty
    all_goals simp only [hempty, Bool.not_true, Bool.not_false, Bool.false_eq_true, if_false, if_true] at h
    case pos =>
      rcases hE : (ensureTime dtd).1 with _ | s
      all_goals simp only [hE] at h
      case none =>
        rw [Except.ok.injEq] at h; subst h
        exact fun pdt hpdt => absurd hpdt (by simp)
      case some =>
        rcases hP : strptimeNaive s with _ | n
        all_goals simp only [hP] at h
        case none => exact absurd h (by simp)
        case some =>
          rw [Except.ok.injEq] at h; subst h
          intro pdt hpdt
          simp only [Option.some.injEq] at hpdt
          subst hpdt
          exact ⟨s, rfl, Or.inl hP⟩
    case neg =>
      rcases hsec : exif_offset_to_seconds ((some ol).getD []) with _ | osec
      all_goals simp only [hsec] at h
      case none => exact absurd h (by simp)
      case some =>
        rcases hE : (ensureTime dtd).1 with _ | s
        all_goals simp only [hE] at h
        case none =>
          rw [Except.ok.injEq] at h; subst h
          exact fun pdt hpdt => absurd hpdt (by simp)
        case some =>
          rcases hP : strptimeAware (stripTrailingOffset s ++ removeColons ((some ol).getD []))
            with _ | ⟨n, z⟩
          all_goals simp only [hP] at h
          case none => exact absurd h (by simp)
          case some =>
            rw [Except.ok.injEq] at h; subst h
            intro pdt hpdt
            simp only [Option.some.injEq] at hpdt
            subst hpdt
            exact ⟨s, rfl, Or.inr ⟨removeColons ((some ol).getD []), z, hP⟩⟩

theorem matchDateOnly_some (s dp : List Char) (h : matchDateOnly s = some dp) :
    ∃ y1 y2 y3 y4 m1 m2 d1 d2 t,
      s = y1 :: y2 :: y3 :: y4 :: ':' :: m1 :: m2 :: ':' :: d1 :: d2 :: t ∧
      dp = [y1, y2, y3, y4, ':', m1, m2, ':', d1, d2] ∧
      y1.isDigit = true ∧ y2.isDigit = true ∧ y3.isDigit = true ∧ y4.isDigit = true ∧
      m1.isDigit = true ∧ m2.isDigit = true ∧ d1.isDigit = true ∧ d2.isDigit = true := by
  unfold matchDateOnly at h
  split at h
  · rename_i y1 y2 y3 y4 c1 m1 m2 c2 d1 d2 t
    split at h
    · rename_i hcond
      simp only [Bool.and_eq_true, decide_eq_true_eq] at hcond
      obtain ⟨⟨⟨⟨⟨⟨⟨⟨⟨hy1, hy2⟩, hy3⟩, hy4⟩, hc1⟩, hm1⟩, hm2⟩, hc2⟩, hd1⟩, hd2⟩ := hcond
      subst hc1 hc2
      rw [Option.some.injEq] at h
      exact ⟨y1, y2, y3, y4, m1, m2, d1, d2, t, rfl, h.symm,
        hy1, hy2, hy3, hy4, hm1, hm2, hd1, hd2⟩
    · exact absurd h (by simp)
  · exact absurd h (by simp)


theorem parseDTCore_trailing_00 (y1 y2 y3 y4 m1 m2 d1 d2 : Char) (rest : List Char)
    (hy1 : y1.isDigit = true) (hy2 : y2.isDigit = true) (hy3 : y3.isDigit = true)
    (hy4 : y4.isDigit = true) (hm1 : m1.isDigit = true) (hm2 : m2.isDigit = true)
    (hd1 : d1.isDigit = true) (hd2 : d2.isDigit = true)
    (dt : NaiveDT) (rest' : List Char)
    (hp : parseDTCore (y1 :: y2 :: y3 :: y4 :: ':' :: m1 :: m2 :: ':' :: d1 :: d2 ::
      ' ' :: '0' :: '0' :: ':' :: '0' :: '0' :: ':' :: '0' :: '0' :: rest) =
        some (dt, rest')) :
    dt.hour = 0 ∧ dt.minute = 0 ∧ dt.second = 0 := by
  have hcd : (':' : Char).isDigit = false := by decide
  have hsd : (' ' : Char).isDigit = false := by decide
  have h0d : ('0' : Char).isDigit = true := by decide
  have h0w : ('0' : Char).isWhitespace = false := by decide
  have hsw : (' ' : Char).isWhitespace = true := by decide
  unfold parseDTCore at hp
  rw [Option.bind_eq_some] at hp
  obtain ⟨⟨yv, r1⟩, hy, hp⟩ := hp
  simp only [parseYear, readDigits, hy1, hy2, hy3, hy4, hcd, if_true, if_false,
    Bool.false_eq_true, Option.some.injEq, Prod.mk.injEq] at hy
  obtain ⟨hyv, hr1⟩ := hy
  subst hr1
  rw [Option.bind_eq_some] at hp
  obtain ⟨r2, hc1, hp⟩ := hp
  simp only [expectChar, if_true, Option.some.injEq] at hc1
  subst hc1
  rw [Option.bind_eq_some] at hp
  obtain ⟨⟨mov, r3⟩, hmo, hp⟩ := hp
  simp only [parseNum, readDigits, hm1, hm2, hcd, if_true, if_false,
    Bool.false_eq_true] at hmo
  split at hmo
  case isFalse => exact absurd hmo (by simp)
  case isTrue =>
    simp only [Option.some.injEq, Prod.mk.injEq] at hmo
    obtain ⟨hmov, hr3⟩ := hmo
    subst hr3
    rw [Option.bind_eq_some] at hp
    obtain ⟨r4, hc2, hp⟩ := hp
    simp only [expectChar, if_true, Option.some.injEq] at hc2
    subst hc2
    rw [Option.bind_eq_some] at hp
    obtain ⟨⟨dav, r5⟩, hda, hp⟩ := hp
    simp only [parseNum, readDigits, hd1, hd2, hsd, if_true, if_false,
      Bool.false_eq_true] at hda
    split at hda
    case isFalse => exact absurd hda (by simp)
    case isTrue =>
      simp only [Option.some.injEq, Prod.mk.injEq] at hda
      obtain ⟨hdav, hr5⟩ := hda
      subst hr5
      rw [Option.bind_eq_some] at hp
      obtain ⟨r6, hws, hp⟩ := hp
      simp only [expectSpaces, hsw, List.dropWhile_cons, h0w, if_true, if_false,
        Bool.false_eq_true, Option.some.injEq] at hws
      subst hws
      rw [Option.bind_eq_some] at hp
      obtain ⟨⟨hov, r7⟩, hho, hp⟩ := hp
      simp [parseNum, readDigits, h0d, hcd, digitVal] at hho
      obtain ⟨hhov, hr7⟩ := hho
      subst hr7
      rw [Option.bind_eq_some] at hp
      obtain ⟨r8, hc3, hp⟩ := hp
      simp only [expectChar, if_true, Option.some.injEq] at hc3
      subst hc3
      rw [Option.bind_eq_some] at hp
      obtain ⟨⟨miv, r9⟩, hmi, hp⟩ := hp
      simp [parseNum, readDigits, h0d, hcd, digitVal] at hmi
      obtain ⟨hmiv, hr9⟩ := hmi
      subst hr9
      rw [Option.bind_eq_some] at hp
      obtain ⟨r10, hc4, hp⟩ := hp
      simp only [expectChar, if_true, Option.some.injEq] at hc4
      subst hc4
      rw [Option.bind_eq_some] at hp
      obtain ⟨⟨sev, r11⟩, hse, hp⟩ := hp
      rcases hrd : readDigits rest with ⟨p1, p2⟩
      simp [parseNum, readDigits, h0d, hrd, digitVal] at hse
      cases p1 with
      | nil =>
        simp at hse
        obtain ⟨hsev, hr11⟩ := hse
        simp only [Option.some.injEq, Prod.mk.injEq] at hp
        obtain ⟨hdt, _⟩ := hp
        rw [← hdt, ← hhov, ← hmiv, ← hsev]
        exact ⟨rfl, rfl, rfl⟩
      | cons c p1' => simp at hse

theorem stripTrailingOffset_trailing_00 (y1 y2 y3 y4 m1 m2 d1 d2 : Char) :
    stripTrailingOffset (y1 :: y2 :: y3 :: y4 :: ':' :: m1 :: m2 :: ':' :: d1 :: d2 ::
        ' ' :: '0' :: '0' :: ':' :: '0' :: '0' :: ':' :: '0' :: '0' :: []) =
      y1 :: y2 :: y3 :: y4 :: ':' :: m1 :: m2 :: ':' :: d1 :: d2 ::
        ' ' :: '0' :: '0' :: ':' :: '0' :: '0' :: ':' :: '0' :: '0' :: [] := by
  simp [stripTrailingOffset]

theorem truthy_false_cases (o : Option String) (h : truthy o = false) :
    o = none ∨ ∃ t, o = some t ∧ t.isEmpty = true := by
  cases o with
  | none => exact Or.inl rfl
  | some t =>
    refine Or.inr ⟨t, rfl, ?_⟩
    simpa [truthy] using h

theorem chooseDTField_skip (exif : ExifDict) (f : String) (rest : List String)
    (h : truthy (exifGet exif f) = false) :
    chooseDTField exif (f :: rest) = chooseDTField exif rest := by
  rcases truthy_false_cases _ h with hn | ⟨t, ht, hte⟩
  · simp [chooseDTField, hn]
  · simp [chooseDTField, ht, hte]

/-- C6: the extractor's time defaulting.  When the winning datetime string
contains a date but no time component, the extractor synthesizes time-of-day
00:00:00 and returns `default_time = true` (first conjunct: on every
successful extraction whose winning string fails the full date-time pattern
but starts with a date, the result's datetime has time 00:00:00 and
`default_time` is set); when a time is present — the winning string matches
the full date-time pattern — `default_time` keeps the loop's value, which is
`false` unless the DateCreated synthesis fired (second conjunct); and when
the winning field is the legacy `IPTC:DateCreated` with no companion
`IPTC:TimeCreated` (for example, only `DateCreated = "2021:10:02"`), the
loop appends ` 00:00:00` and sets the flag (third conjunct). -/
theorem C6_default_time_synthesis (exif : ExifDict) (s : List Char) (d : Bool)
    (r : ExifDateTime)
    (hc : chooseDTField exif dtFieldList = (some s, d))
    (hr : get_exif_date_time_offset exif = Except.ok r) :
    (matchFullDT s = false → ∀ dp, matchDateOnly s = some dp →
      r.default_time = true ∧
      ∀ pdt, r.datetime = some pdt →
        pdt.naive.hour = 0 ∧ pdt.naive.minute = 0 ∧ pdt.naive.second = 0) ∧
    (matchFullDT s = true → r.default_time = d) ∧
    (∀ v : String,
      truthy (exifGet exif "EXIF:DateTimeOriginal") = false →
      truthy (exifGet exif "EXIF:CreateDate") = false →
      truthy (exifGet exif "QuickTime:CreationDate") = false →
      truthy (exifGet exif "QuickTime:CreateDate") = false →
      exifGet exif "IPTC:DateCreated" = some v → v.isEmpty = false →
      truthy (exifGet exif "IPTC:TimeCreated") = false →
      s = v.toList ++ (" 00:00:00").toList ∧ d = true) := by
  unfold get_exif_date_time_offset at hr
  rw [hc] at hr
  refine ⟨?_, ?_, ?_⟩
  · -- date-but-no-time winner
    intro hfull dp hdp
    have hens : ensureTime (some s, d) = (some (dp ++ (" 00:00:00").toList), true) := by
      simp [ensureTime, hfull, hdp]
    constructor
    · rw [finishExtract_default_time _ _ _ hr, hens]
    · intro pdt hpdt
      obtain ⟨s1, hs1, hsrc⟩ := finishExtract_datetime_src _ _ _ hr pdt hpdt
      rw [hens] at hs1
      simp only [Option.some.injEq] at hs1
      obtain ⟨e1, e2, e3, e4, f1, f2, g1, g2, t, hseq, hdpeq, he1, he2, he3, he4,
        hf1, hf2, hg1, hg2⟩ := matchDateOnly_some s dp hdp
      have hs1' : s1 = e1 :: e2 :: e3 :: e4 :: ':' :: f1 :: f2 :: ':' :: g1 :: g2 ::
          ' ' :: '0' :: '0' :: ':' :: '0' :: '0' :: ':' :: '0' :: '0' :: [] := by
        rw [← hs1, hdpeq]
        rfl
      rcases hsrc with hnaive | ⟨ostr, z, haware⟩
      · rw [hs1'] at hnaive
        unfold strptimeNaive at hnaive
        split at hnaive
        · rename_i dt0 heq
          split at hnaive
          · simp only [Option.some.injEq] at hnaive
            subst hnaive
            exact parseDTCore_trailing_00 e1 e2 e3 e4 f1 f2 g1 g2 []
              he1 he2 he3 he4 hf1 hf2 hg1 hg2 _ _ heq
          · exact absurd hnaive (by simp)
        · exact absurd hnaive (by simp)
      · rw [hs1', stripTrailingOffset_trailing_00] at haware
        unfold strptimeAware at haware
        split at haware
        · rename_i dt0 rest0 heq
          split at haware
          · rename_i z0 hz
            split at haware
            · simp only [Option.some.injEq, Prod.mk.injEq] at haware
              obtain ⟨hn, _⟩ := haware
              subst hn
              exact parseDTCore_trailing_00 e1 e2 e3 e4 f1 f2 g1 g2 ostr
                he1 he2 he3 he4 hf1 hf2 hg1 hg2 _ _ heq
            · exact absurd haware (by simp)
          · exact absurd haware (by simp)
        · exact absurd haware (by simp)
  · -- time present
    intro hfull
    rw [finishExtract_default_time _ _ _ hr]
    simp [ensureTime, hfull]
  · -- IPTC:DateCreated with no companion time
    intro v h1 h2 h3 h4 h5 hv h7
    rw [dtFieldList] at hc
    rw [chooseDTField_skip exif _ _ h1, chooseDTField_skip exif _ _ h2,
      chooseDTField_skip exif _ _ h3, chooseDTField_skip exif _ _ h4] at hc
    rcases truthy_false_cases _ h7 with hn | ⟨t, ht, hte⟩
    · simp [chooseDTField, h5, hv, hn, Prod.ext_iff] at hc
      exact ⟨hc.1.symm, hc.2⟩
    · simp [chooseDTField, h5, hv, ht, hte, Prod.ext_iff] at hc
      exact ⟨hc.1.symm, hc.2⟩

/-- C6 witness. -/
theorem C6_default_time_synthesis_witness :
    (⟨some ⟨⟨2021, 10, 2, 0, 0, 0⟩, none⟩, none, [], true⟩ : ExifDateTime).default_time = true ∧
    ("2021:10:02 00:00:00").toList = ("2021:10:02").toList ++ (" 00:00:00").toList := by
  have h := C6_default_time_synthesis [("IPTC:DateCreated", "2021:10:02")]
    ("2021:10:02 00:00:00").toList true
    ⟨some ⟨⟨2021, 10, 2, 0, 0, 0⟩, none⟩, none, [], true⟩ (by decide) rfl
  exact ⟨h.2.1 (by decide),
    (h.2.2 "2021:10:02" rfl rfl rfl rfl rfl (by decide) rfl).1⟩

theorem isDigit_digitChar {n : Nat} (h : n ≤ 9) : (Nat.digitChar n).isDigit = true := by
  interval_cases n <;> decide

theorem digitVal_digitChar {n : Nat} (h : n ≤ 9) : digitVal (Nat.digitChar n) = n := by
  interval_cases n <;> decide

theorem isWhitespace_digitChar {n : Nat} (h : n ≤ 9) :
    (Nat.digitChar n).isWhitespace = false := by
  interval_cases n <;> decide

theorem readDigits_append (ds rest : List Char) (hds : ∀ c ∈ ds, c.isDigit = true)
    (hrest : ∀ c, rest.head? = some c → c.isDigit = false) :
    readDigits (ds ++ rest) = (ds, rest) := by
  induction ds with
  | nil =>
    cases rest with
    | nil => rfl
    | cons c t =>
      have := hrest c rfl
      simp [readDigits, this]
  | cons a t ih =>
    have ha : a.isDigit = true := hds a (by simp)
    have ht : ∀ c ∈ t, c.isDigit = true := fun c hc => hds c (by simp [hc])
    simp [readDigits, ha, ih ht]

theorem parseNum_pad2 (ok2 ok1 : Nat → Bool) (n : Nat) (rest : List Char)
    (h99 : n ≤ 99) (hok : ok2 n = true)
    (hrest : ∀ c, rest.head? = some c → c.isDigit = false) :
    parseNum ok2 ok1 (pad2 n ++ rest) = some (n, rest) := by
  have ha : (Nat.digitChar (n / 10)).isDigit = true := isDigit_digitChar (by omega)
  have hb : (Nat.digitChar (n % 10)).isDigit = true := isDigit_digitChar (by omega)
  have hrd : readDigits (pad2 n ++ rest) = (pad2 n, rest) := by
    apply readDigits_append
    · intro c hc
      simp [pad2] at hc
      rcases hc with hc | hc <;> rw [hc]
      · exact ha
      · exact hb
    · exact hrest
  rw [pad2] at hrd ⊢
  simp only [parseNum, hrd]
  simp only [digitVal_digitChar (show n / 10 ≤ 9 by omega),
    digitVal_digitChar (show n % 10 ≤ 9 by omega)]
  have hn : 10 * (n / 10) + n % 10 = n := by omega
  rw [hn, hok]
  rfl

theorem parseYear_pad4 (y : Nat) (rest : List Char) (h : y ≤ 9999)
    (hrest : ∀ c, rest.head? = some c → c.isDigit = false) :
    parseYear (pad4 y ++ rest) = some (y, rest) := by
  have h1 : (Nat.digitChar (y / 1000)).isDigit = true := isDigit_digitChar (by omega)
  have h2 : (Nat.digitChar (y / 100 % 10)).isDigit = true := isDigit_digitChar (by omega)
  have h3 : (Nat.digitChar (y / 10 % 10)).isDigit = true := isDigit_digitChar (by omega)
  have h4 : (Nat.digitChar (y % 10)).isDigit = true := isDigit_digitChar (by omega)
  have hrd : readDigits (pad4 y ++ rest) = (pad4 y, rest) := by
    apply readDigits_append
    · intro c hc
      simp [pad4] at hc
      rcases hc with hc | hc | hc | hc <;> rw [hc]
      · exact h1
      · exact h2
      · exact h3
      · exact h4
    · exact hrest
  rw [pad4] at hrd ⊢
  simp only [parseYear, hrd]
  simp only [digitsToNat, List.foldl, digitVal_digitChar (show y / 1000 ≤ 9 by omega),
    digitVal_digitChar (show y / 100 % 10 ≤ 9 by omega),
    digitVal_digitChar (show y / 10 % 10 ≤ 9 by omega),
    digitVal_digitChar (show y % 10 ≤ 9 by omega)]
  have hy : 10 * (10 * (10 * (10 * 0 + y / 1000) + y / 100 % 10) + y / 10 % 10) + y % 10 = y := by
    omega
  rw [hy]

theorem parseZ_pad (z : Int) (hz60 : z % 60 = 0) (habs : z.natAbs < 86400) :
    parseZ ((if z < 0 then '-' else '+') ::
      (pad2 (z.natAbs / 3600) ++ ':' :: pad2 (z.natAbs % 3600 / 60))) = some (z, []) := by
  have hH1 : z.natAbs / 3600 / 10 ≤ 9 := by omega
  have hH2 : z.natAbs / 3600 % 10 ≤ 9 := by omega
  have hM1 : z.natAbs % 3600 / 60 / 10 ≤ 9 := by omega
  have hM2 : z.natAbs % 3600 / 60 % 10 ≤ 9 := by omega
  have hm1le : z.natAbs % 3600 / 60 / 10 ≤ 5 := by omega
  by_cases hz : z < 0 <;>
    simp only [hz, if_true, if_false] <;>
    simp only [parseZ, pad2, List.cons_append, List.nil_append] <;>
    simp [isDigit_digitChar hH1, isDigit_digitChar hH2, isDigit_digitChar hM1,
      isDigit_digitChar hM2, digitVal_digitChar hH1, digitVal_digitChar hH2,
      digitVal_digitChar hM1, digitVal_digitChar hM2, hm1le] <;>
    simp only [Int.abs_eq_natAbs] <;>
    omega

theorem daysInMonth_le_31 (y m : Nat) : daysInMonth y m ≤ 31 := by
  unfold daysInMonth
  split_ifs <;> simp

theorem strptimeAware_fmt_roundtrip (pd : NaiveDT) (z : Int)
    (hv : validDT pd) (hy : 1000 ≤ pd.year) (hz60 : z % 60 = 0) (habs : z.natAbs < 86400) :
    strptimeAware ((fmtYmdHMS pd).toList ++
      ((if z < 0 then '-' else '+') ::
        (pad2 (z.natAbs / 3600) ++ ':' :: pad2 (z.natAbs % 3600 / 60)))) = some (pd, z) := by
  obtain ⟨hv1, hv2, hv3, hv4, hv5, hv6, hv7, hv8, hv9⟩ := hv
  have hsignd : ∀ c : Char,
      ((if z < 0 then '-' else '+') ::
        (pad2 (z.natAbs / 3600) ++ ':' :: pad2 (z.natAbs % 3600 / 60))).head? = some c →
      c.isDigit = false := by
    intro c hc
    simp only [List.head?, Option.some.injEq] at hc
    subst hc
    by_cases hzz : z < 0 <;> simp [hzz]
  have hcolond : ∀ (t : List Char) (c : Char), (':' :: t).head? = some c → c.isDigit = false := by
    intro t c hc
    simp only [List.head?, Option.some.injEq] at hc
    subst hc
    decide
  have hspaced : ∀ (t : List Char) (c : Char), (' ' :: t).head? = some c → c.isDigit = false := by
    intro t c hc
    simp only [List.head?, Option.some.injEq] at hc
    subst hc
    decide
  have hl : ((fmtYmdHMS pd).toList ++
      ((if z < 0 then '-' else '+') ::
        (pad2 (z.natAbs / 3600) ++ ':' :: pad2 (z.natAbs % 3600 / 60)))) =
    pad4 pd.year ++ ':' :: (pad2 pd.month ++ ':' :: (pad2 pd.day ++ ' ' ::
      (pad2 pd.hour ++ ':' :: (pad2 pd.minute ++ ':' :: (pad2 pd.second ++
        ((if z < 0 then '-' else '+') ::
          (pad2 (z.natAbs / 3600) ++ ':' :: pad2 (z.natAbs % 3600 / 60)))))))) := by
    show ((pad4 pd.year ++ ':' :: (pad2 pd.month ++ ':' :: (pad2 pd.day ++ ' ' ::
      (pad2 pd.hour ++ ':' :: (pad2 pd.minute ++ ':' :: pad2 pd.second))))) ++ _) = _
    simp [List.append_assoc]
  have hcore : parseDTCore ((fmtYmdHMS pd).toList ++
      ((if z < 0 then '-' else '+') ::
        (pad2 (z.natAbs / 3600) ++ ':' :: pad2 (z.natAbs % 3600 / 60)))) =
      some (pd, ((if z < 0 then '-' else '+') ::
        (pad2 (z.natAbs / 3600) ++ ':' :: pad2 (z.natAbs % 3600 / 60)))) := by
    rw [hl]
    unfold parseDTCore
    rw [parseYear_pad4 pd.year _ (by omega) (hcolond _)]
    simp only [Option.some_bind]
    simp only [expectChar, if_true, Option.some_bind]
    rw [parseNum_pad2 _ _ pd.month _ (by omega) (by simp [hv3, hv4]) (hcolond _)]
    simp only [Option.some_bind]
    simp only [expectChar, if_true, Option.some_bind]
    have hd31 : pd.day ≤ 31 := le_trans hv6 (daysInMonth_le_31 pd.year pd.month)
    rw [parseNum_pad2 _ _ pd.day _ (by omega) (by simp [hv5, hd31]) (hspaced _)]
    simp only [Option.some_bind]
    have hsw : (' ' : Char).isWhitespace = true := by decide
    have hdw : (Nat.digitChar (pd.hour / 10)).isWhitespace = false :=
      isWhitespace_digitChar (by omega)
    have hunf : ∀ R : List Char, pad2 pd.hour ++ R =
        Nat.digitChar (pd.hour / 10) :: Nat.digitChar (pd.hour % 10) :: R := fun R => rfl
    simp only [expectSpaces, hsw, if_true, Option.some_bind]
    rw [hunf]
    simp only [List.dropWhile_cons, hdw, Bool.false_eq_true, if_false]
    rw [← hunf]
    rw [parseNum_pad2 _ _ pd.hour _ (by omega) (by simp [hv7]) (hcolond _)]
    simp only [Option.some_bind]
    simp only [expectChar, if_true, Option.some_bind]
    rw [parseNum_pad2 _ _ pd.minute _ (by omega) (by simp [hv8]) (hcolond _)]
    simp only [Option.some_bind]
    simp only [expectChar, if_true, Option.some_bind]
    rw [parseNum_pad2 _ _ pd.second _ (by omega) (by simp; omega) hsignd]
    simp only [Option.some_bind]
  have hvv : validDT pd := ⟨hv1, hv2, hv3, hv4, hv5, hv6, hv7, hv8, hv9⟩
  simp only [strptimeAware, hcore, parseZ_pad z hz60 habs, hvv, if_true]

/-- C7: the push field policy.  For every asset pushed from catalog to file
metadata (with the localized photo datetime in the representable range and a
whole-minute stored offset within a day): a still image gets
`EXIF:DateTimeOriginal` and `EXIF:CreateDate` set to the identical
`YYYY:MM:DD HH:MM:SS` value with no offset suffix (a 19-character string),
`EXIF:OffsetTimeOriginal` set to the `±HH:MM` rendering of the offset, and
the legacy `IPTC:DateCreated`/`IPTC:TimeCreated` pair (date plain, time with
offset suffix); a video gets the single offset-qualified
`QuickTime:CreationDate` (local wall clock plus offset suffix) and a
separate UTC-normalized `QuickTime:CreateDate` obtained by converting that
offset-qualified instant to UTC — the round trip through `strptime` in the
source reduces to shifting the wall clock by minus the offset. -/
theorem C7_push_field_policy (localOff : Int) (st : PhotoState) (pd : NaiveDT)
    (hpd : naiveLocalToPhotoTZ localOff st.date st.tzOffset = pd)
    (hv : validDT pd) (hy : 1000 ≤ pd.year)
    (hz60 : st.tzOffset % 60 = 0) (habs : st.tzOffset.natAbs < 86400) :
    ∃ offl, format_offset_time st.tzOffset = some offl ∧
      update_exif_from_photos localOff true st = some
        [("EXIF:DateTimeOriginal", fmtYmdHMS pd),
         ("EXIF:CreateDate", fmtYmdHMS pd),
         ("IPTC:DateCreated", fmtYmd pd),
         ("IPTC:TimeCreated", fmtHMS pd ++ (⟨offl⟩ : String)),
         ("EXIF:OffsetTimeOriginal", (⟨offl⟩ : String))] ∧
      update_exif_from_photos localOff false st = some
        [("QuickTime:CreationDate", fmtYmdHMS pd ++ (⟨offl⟩ : String)),
         ("QuickTime:CreateDate", fmtYmdHMS (datetime_tz_to_utc pd st.tzOffset))] ∧
      (fmtYmdHMS pd).toList.length = 19 := by
  have hoff : format_offset_time st.tzOffset = some ((if st.tzOffset < 0 then '-' else '+') ::
      (pad2 (st.tzOffset.natAbs / 3600) ++ ':' :: pad2 (st.tzOffset.natAbs % 3600 / 60))) := by
    simp [format_offset_time, hz60]
  refine ⟨_, hoff, ?_, ?_, ?_⟩
  · unfold update_exif_from_photos
    rw [hpd, hoff]
    rfl
  · unfold update_exif_from_photos
    rw [hpd, hoff]
    simp only []
    have htl : ((fmtYmdHMS pd ++ (⟨(if st.tzOffset < 0 then '-' else '+') ::
        (pad2 (st.tzOffset.natAbs / 3600) ++ ':' ::
          pad2 (st.tzOffset.natAbs % 3600 / 60))⟩ : String)).toList) =
        (fmtYmdHMS pd).toList ++ ((if st.tzOffset < 0 then '-' else '+') ::
        (pad2 (st.tzOffset.natAbs / 3600) ++ ':' ::
          pad2 (st.tzOffset.natAbs % 3600 / 60))) := by
      simp [String.toList, String.data_append]
    simp only [htl, strptimeAware_fmt_roundtrip pd st.tzOffset hv hy hz60 habs]
    rfl
  · simp [fmtYmdHMS, pad4, pad2, String.toList]

/-- C7 witness. -/
theorem C7_push_field_policy_witness :
    ∃ offl, format_offset_time ((⟨⟨2020, 9, 1, 12, 40, 7⟩, 1, -25200, "GMT-0700"⟩ :
        PhotoState)).tzOffset = some offl ∧
      update_exif_from_photos (-25200) true ⟨⟨2020, 9, 1, 12, 40, 7⟩, 1, -25200, "GMT-0700"⟩ =
        some
          [("EXIF:DateTimeOriginal", fmtYmdHMS ⟨2020, 9, 1, 12, 40, 7⟩),
           ("EXIF:CreateDate", fmtYmdHMS ⟨2020, 9, 1, 12, 40, 7⟩),
           ("IPTC:DateCreated", fmtYmd ⟨2020, 9, 1, 12, 40, 7⟩),
           ("IPTC:TimeCreated", fmtHMS ⟨2020, 9, 1, 12, 40, 7⟩ ++ (⟨offl⟩ : String)),
           ("EXIF:OffsetTimeOriginal", (⟨offl⟩ : String))] ∧
      update_exif_from_photos (-25200) false ⟨⟨2020, 9, 1, 12, 40, 7⟩, 1, -25200, "GMT-0700"⟩ =
        some
          [("QuickTime:CreationDate", fmtYmdHMS ⟨2020, 9, 1, 12, 40, 7⟩ ++ (⟨offl⟩ : String)),
           ("QuickTime:CreateDate",
             fmtYmdHMS (datetime_tz_to_utc ⟨2020, 9, 1, 12, 40, 7⟩
               ((⟨⟨2020, 9, 1, 12, 40, 7⟩, 1, -25200, "GMT-0700"⟩ : PhotoState)).tzOffset))] ∧
      (fmtYmdHMS (⟨2020, 9, 1, 12, 40, 7⟩ : NaiveDT)).toList.length = 19 := by
  exact C7_push_field_policy (-25200) ⟨⟨2020, 9, 1, 12, 40, 7⟩, 1, -25200, "GMT-0700"⟩
    ⟨2020, 9, 1, 12, 40, 7⟩ (by decide) (by decide) (by decide) (by decide) (by decide)
